import Mathlib

/-!
# osrm-batchroute: a verification development

A shallow embedding of `osrm-batchroute.cpp` (`parse_program_options`,
`calc_route` and the main loop of `main`) together with theorems about the
streaming pipeline and the option resolver.

Conventions of the embedding

* C++ strings are `List Char`.
* `double` is an abstract type `D`; the C library conversions between text and
  `double` are the fields of a `Platform D`.
* The routing engine (`osrm::OSRM`) is a function from a request to a status
  and a JSON object, as `OSRM::Route` fills one.
* An uncaught C++ exception ends the process by `std::terminate`; that is the
  termination `Termination.aborted`.
-/

namespace OsrmBatchroute

/-! ## The C library: `errno`, `atof` -/

/-- The value `errno` takes on a range error (its Linux value; only `ERANGE ≠ 0` matters). -/
def ERANGE : Nat := 34

/-- The platform's `double`: the zero value, the conversion of a well-formed
numeric text to a `double` (second component: the conversion is out of range and
reports `ERANGE`), and the text `operator<<` writes for a `double`. -/
structure Platform (D : Type) where
  zero : D
  strtod : List Char → D × Bool
  render : D → List Char

/-- The C `isspace` in the "C" locale. -/
def isspace (c : Char) : Bool :=
  c == ' ' || c == '\t' || c == '\n' || c == '\x0b' || c == '\x0c' || c == '\r'

/-- The C `isdigit`. -/
def isdigit (c : Char) : Bool := decide ('0' ≤ c) && decide (c ≤ '9')

/-- The C `isxdigit`. -/
def isxdigit (c : Char) : Bool :=
  isdigit c || (decide ('a' ≤ c) && decide (c ≤ 'f')) || (decide ('A' ≤ c) && decide (c ≤ 'F'))

/-- The C `tolower` on ASCII letters. -/
def tolower (c : Char) : Char :=
  if decide ('A' ≤ c) && decide (c ≤ 'Z') then Char.ofNat (c.toNat + 32) else c

/-- An optional `+` or `-` at the head of a text: the sign read and the rest. -/
def scan_sign : List Char → List Char × List Char
  | '+' :: t => (['+'], t)
  | '-' :: t => (['-'], t)
  | s => ([], s)

/-- A nonempty run of digits (as `digit` decides) optionally containing one
radix character `.`: the text read and the rest, or `none` when there is no digit. -/
def scan_digits (digit : Char → Bool) (s : List Char) : Option (List Char × List Char) :=
  let ip := s.takeWhile digit
  match s.dropWhile digit with
  | '.' :: r =>
    let fp := r.takeWhile digit
    if ip.isEmpty && fp.isEmpty then none else some (ip ++ '.' :: fp, r.dropWhile digit)
  | r => if ip.isEmpty then none else some (ip, r)

/-- An optional exponent part: a marker (`e`/`E`, or `p`/`P` for hexadecimal), an
optional sign and a nonempty run of decimal digits. The text read, `[]` when absent. -/
def scan_exponent (marker : Char → Bool) : List Char → List Char
  | e :: r =>
    if marker e then
      let ds := (scan_sign r).2.takeWhile isdigit
      if ds.isEmpty then [] else e :: (scan_sign r).1 ++ ds
    else []
  | [] => []

/-- The word `w` (given in lower case) at the head of `s`, ignoring case: the
text read and the rest. -/
def scan_word : List Char → List Char → Option (List Char × List Char)
  | [], s => some ([], s)
  | _ :: _, [] => none
  | w :: ws, c :: s =>
    if tolower c == w then (scan_word ws s).map (fun p => (c :: p.1, p.2)) else none

/-- The optional `(n-char-sequence)` after `NAN`. The text read, `[]` when absent. -/
def scan_nan_chars : List Char → List Char
  | '(' :: r =>
    let body := r.takeWhile (fun c => c.isAlphanum || c == '_')
    match r.dropWhile (fun c => c.isAlphanum || c == '_') with
    | ')' :: _ => '(' :: body ++ [')']
    | _ => []
  | _ => []

/-- The unsigned part of the subject sequence of `strtod` (C11 7.22.1.3): a
hexadecimal floating constant, a decimal one, `INF`/`INFINITY`, or `NAN`. -/
def scan_number (s : List Char) : Option (List Char) :=
  let hex : Option (List Char) :=
    match s with
    | '0' :: x :: r =>
      if x == 'x' || x == 'X' then
        (scan_digits isxdigit r).map
          (fun p => '0' :: x :: p.1 ++ scan_exponent (fun c => c == 'p' || c == 'P') p.2)
      else none
    | _ => none
  let dec : Option (List Char) :=
    (scan_digits isdigit s).map (fun p => p.1 ++ scan_exponent (fun c => c == 'e' || c == 'E') p.2)
  let inf : Option (List Char) :=
    ((scan_word "infinity".toList s).orElse (fun _ => scan_word "inf".toList s)).map (fun p => p.1)
  let nan : Option (List Char) :=
    (scan_word "nan".toList s).map (fun p => p.1 ++ scan_nan_chars p.2)
  hex.orElse (fun _ => dec.orElse (fun _ => inf.orElse (fun _ => nan)))

/-- The subject sequence of `strtod`: after leading white space, the longest
initial part of the text that has the form of a floating-point number, or `none`
when the text does not start with a number. -/
def subject_sequence (nptr : List Char) : Option (List Char) :=
  let s := nptr.dropWhile isspace
  (scan_number (scan_sign s).2).map (fun body => (scan_sign s).1 ++ body)

/-- `std::atof`, which is `strtod(nptr, nullptr)`: converts the subject
sequence and ignores what follows it; when there is no subject sequence it
returns zero and leaves `errno` alone; `errno` becomes `ERANGE` exactly when
the conversion reports a range error. Returns the value and the new `errno`. -/
def atof {D : Type} (P : Platform D) (nptr : List Char) (errno : Nat) : D × Nat :=
  match subject_sequence nptr with
  | none => (P.zero, errno)
  | some subject => ((P.strtod subject).1, if (P.strtod subject).2 then ERANGE else errno)

/-! ## `boost::split` on `,` -/

/-- The result of `boost::split(result, line, [](char c) { return c == ','; })`
(no token compression): the fields between the commas; an empty line has one
empty field. -/
def split : List Char → List (List Char)
  | [] => [[]]
  | c :: cs =>
    if c = ',' then [] :: split cs
    else
      match split cs with
      | [] => [[c]]
      | f :: fs => (c :: f) :: fs

/-! ## The engine interface: coordinates, requests, JSON results -/

/-- The strong typedef `osrm::util::FloatLongitude`. -/
structure FloatLongitude (D : Type) where
  value : D

/-- The strong typedef `osrm::util::FloatLatitude`. -/
structure FloatLatitude (D : Type) where
  value : D

/-- The type `osrm::util::Coordinate`, built from a longitude and a latitude, in that order. -/
structure Coordinate (D : Type) where
  lon : FloatLongitude D
  lat : FloatLatitude D

/-- The fields of `osrm::RouteParameters` that `calc_route` sets. -/
structure RouteParameters (D : Type) where
  alternatives : Nat
  coordinates : List (Coordinate D)

/-- The enumeration `osrm::Status`. -/
inductive Status where
  | Ok
  | Error
  deriving DecidableEq, Repr

namespace json

/-- The variant `osrm::json::Value`; an object is its list of key/value pairs. -/
inductive Value (D : Type) where
  | String (value : List Char)
  | Number (value : D)
  | Object (values : List (List Char × Value D))
  | Array (values : List (Value D))
  | True
  | False
  | Null

/-- The type `osrm::json::Object`: the member `values`. -/
abbrev Object (D : Type) := List (List Char × Value D)

/-- The expression `object.values[key]`: the value stored under `key`, and a
default-constructed `Value` (an empty `String`) when the key is absent. -/
def Object.at {D : Type} (o : Object D) (key : List Char) : Value D :=
  (o.lookup key).getD (Value.String [])

end json

/-- The C++ exceptions that can escape `main`; none is caught, so each ends the
process: the two `calc_route` can raise, and the one `options_description::find`
raises for a name that is not in the table. -/
inductive Exception where
  | bad_variant_access
  | out_of_range
  | unknown_option
  deriving DecidableEq, Repr

/-- The call `value.get<json::Array>()`. -/
def get_Array {D : Type} : json.Value D → Except Exception (List (json.Value D))
  | json.Value.Array vs => .ok vs
  | _ => .error .bad_variant_access

/-- The call `value.get<json::Object>()`. -/
def get_Object {D : Type} : json.Value D → Except Exception (json.Object D)
  | json.Value.Object o => .ok o
  | _ => .error .bad_variant_access

/-- The call `value.get<json::Number>().value`. -/
def get_Number {D : Type} : json.Value D → Except Exception D
  | json.Value.Number d => .ok d
  | _ => .error .bad_variant_access

/-- The call `value.get<json::String>().value`. -/
def get_String {D : Type} : json.Value D → Except Exception (List Char)
  | json.Value.String s => .ok s
  | _ => .error .bad_variant_access

/-- The call `routes.values.at(0)`. -/
def at0 {D : Type} : List (json.Value D) → Except Exception (json.Value D)
  | v :: _ => .ok v
  | [] => .error .out_of_range

/-- The engine `osrm::OSRM`: `Route(params, result)` as a function of the
request, giving the status and the object it leaves in `result`. -/
structure OSRM (D : Type) where
  Route : RouteParameters D → Status × json.Object D

/-- What the program writes to `std::cerr` (and through `perror`), as a list of items. -/
inductive Cerr where
  | text (s : List Char)
  | perror (s : List Char)
  deriving DecidableEq, Repr

/-- The return of `calc_route`: `0` with the two out-parameters set, or `-1`
(the out-parameters are then not written). -/
inductive CalcRoute (D : Type) where
  | returned_0 (distance duration : D)
  | returned_minus_1

/-- The request `calc_route` builds (lines 112-115). -/
def route_params {D : Type} (orig dest : Coordinate D) : RouteParameters D :=
  { alternatives := 0, coordinates := [orig, dest] }

/-- The call `osrm.Route(params, result)` (line 118), the only access to the
engine: the status and the object left in `result`, and the log of the call,
which is the request handed over. -/
def OSRM.Route_logged {D : Type} (osrm : OSRM D) (params : RouteParameters D) :
    (Status × json.Object D) × List (RouteParameters D) :=
  (osrm.Route params, [params])

/-- The function `calc_route` (lines 105-136): the log of its call of the
engine, and the value returned with the text written to `std::cerr`, or the
exception that escapes. -/
def calc_route {D : Type} (osrm : OSRM D) (orig dest : Coordinate D) :
    List (RouteParameters D) × Except Exception (CalcRoute D × List Cerr) :=
  let params := route_params orig dest
  let call := osrm.Route_logged params
  let status := call.1.1
  let result := call.1.2
  (call.2,
   match status with
   | Status.Ok => do
     let routes ← get_Array (json.Object.at result "routes".toList)
     let route ← (at0 routes) >>= get_Object
     let distance ← get_Number (json.Object.at route "distance".toList)
     let duration ← get_Number (json.Object.at route "duration".toList)
     pure (CalcRoute.returned_0 distance duration, [])
   | Status.Error => do
     let code ← get_String (json.Object.at result "code".toList)
     let message ← get_String (json.Object.at result "message".toList)
     pure (CalcRoute.returned_minus_1,
       [Cerr.text ("Error: ".toList ++ code ++ ". ".toList ++ message ++ "\n".toList)]))

/-! ## The main loop -/

/-- How the process ends: `return`/`std::exit` with a status, or `std::terminate`. -/
inductive Termination where
  | exited (status : Nat)
  | aborted (e : Exception)
  deriving DecidableEq, Repr

/-- The constant `EXIT_SUCCESS`. -/
def EXIT_SUCCESS : Nat := 0

/-- The constant `EXIT_FAILURE`. -/
def EXIT_FAILURE : Nat := 1

/-- The observable result of the main loop: the records written to `out` (each
was followed by a newline), the items written to `std::cerr`, the log of the
calls of the engine (the requests handed over, in order), and how the process
ended. -/
structure Run (D : Type) where
  out : List (List Char)
  cerr : List Cerr
  requests : List (RouteParameters D)
  termination : Termination

/-- Lines 186-188: remove one carriage return from the end of the line, if present. -/
def remove_carriage_return (line : List Char) : List Char :=
  if line.getLast? = some '\r' then line.dropLast else line

/-- The two coordinates passed to `calc_route` (lines 199-211) for the four
fields of a line, and the value of `errno` after the four `atof` calls. -/
def parse_coordinates {D : Type} (P : Platform D) (f0 f1 f2 f3 : List Char) :
    Coordinate D × Coordinate D × Nat :=
  let errno := 0
  let lat1 := atof P f0 errno
  let lng1 := atof P f1 lat1.2
  let lat2 := atof P f2 lng1.2
  let lng2 := atof P f3 lat2.2
  ({ lon := ⟨lng1.1⟩, lat := ⟨lat1.1⟩ }, { lon := ⟨lng2.1⟩, lat := ⟨lat2.1⟩ }, lng2.2)

/-- One iteration of the main loop: the records it writes to `out`, what it
writes to `std::cerr`, the log of its calls of the engine, and, when the
iteration ends the process (`return` from `main`, or an exception nobody
catches), how. -/
structure Iteration (D : Type) where
  out : List (List Char)
  cerr : List Cerr
  requests : List (RouteParameters D)
  stop : Option Termination

/-- The body of the main loop (lines 185-215) for the line `std::getline` delivered. -/
def loop_body {D : Type} (P : Platform D) (osrm : OSRM D) (raw : List Char) : Iteration D :=
  let line := remove_carriage_return raw
  match split line with
  | [f0, f1, f2, f3] =>
    let c := parse_coordinates P f0 f1 f2 f3
    if c.2.2 ≠ 0 then
      { out := [], cerr := [Cerr.perror "Error while parsing coordinates".toList],
        requests := [], stop := some (.exited EXIT_FAILURE) }
    else
      let r := calc_route osrm c.1 c.2.1
      match r.2 with
      | .error e =>
        { out := [], cerr := [], requests := r.1, stop := some (.aborted e) }
      | .ok (CalcRoute.returned_0 distance duration, cerr) =>
        { out := [line ++ ',' :: P.render distance ++ ',' :: P.render duration], cerr := cerr,
          requests := r.1, stop := none }
      | .ok (CalcRoute.returned_minus_1, cerr) =>
        { out := [], cerr := cerr, requests := r.1, stop := none }
  | _ =>
    { out := [], cerr := [Cerr.text ("Malformed line: ".toList ++ line ++ "\n".toList)],
      requests := [], stop := some (.exited EXIT_FAILURE) }

/-- Puts the effects of one iteration in front of the result of the rest of the run. -/
def Run.after {D : Type} (i : Iteration D) (r : Run D) : Run D :=
  { out := i.out ++ r.out, cerr := i.cerr ++ r.cerr, requests := i.requests ++ r.requests,
    termination := r.termination }

/-- The main loop of `main` and what follows it (lines 183-222), on the lines
`std::getline` delivers; `bad` tells whether the stream ended in the bad state. -/
def main_loop {D : Type} (P : Platform D) (osrm : OSRM D) : List (List Char) → Bool → Run D
  | [], bad =>
    if bad then
      { out := [], cerr := [Cerr.perror "Error while reading file".toList], requests := [],
        termination := .exited EXIT_FAILURE }
    else
      { out := [], cerr := [], requests := [], termination := .exited EXIT_SUCCESS }
  | raw :: rest, bad =>
    Run.after (loop_body P osrm raw)
      (match (loop_body P osrm raw).stop with
       | some termination => { out := [], cerr := [], requests := [], termination := termination }
       | none => main_loop P osrm rest bad)

/-! ## The option resolver -/

/-- The enumeration `osrm::EngineConfig::Algorithm`, as far as the program uses it. -/
inductive Algorithm where
  | CH
  | MLD
  deriving DecidableEq, Repr

/-- The fields of `osrm::EngineConfig` that `parse_program_options` sets. -/
structure EngineConfig where
  algorithm : Algorithm
  use_shared_memory : Bool
  storage_config : List Char
  deriving DecidableEq, Repr

/-- One option of an `options_description`: its long and short names, whether
it takes a value, and its description. -/
structure option_description where
  long_name : List Char
  short_name : Char
  takes_value : Bool
  description : List Char
  deriving DecidableEq, Repr

/-- Lines 28-32. -/
def generic_options : List option_description :=
  [ ⟨"help".toList, 'h', false, "Show this help message".toList⟩,
    ⟨"input".toList, 'i', true, "input file (defaults to stdin)".toList⟩,
    ⟨"output".toList, 'o', true, "output file (defaults to stdout)".toList⟩ ]

/-- Lines 35-39. -/
def config_options : List option_description :=
  [ ⟨"algorithm".toList, 'a', true, "Algorithm to use. Can be CH or MLD.".toList⟩ ]

/-- Lines 42-44. -/
def hidden_options : List option_description :=
  [ ⟨"base".toList, 'b', true, "base path to .osrm file".toList⟩ ]

/-- Lines 51-52. -/
def cmdline_options : List option_description :=
  generic_options ++ config_options ++ hidden_options

/-- The exceptions derived from `po::error` that parsing and storing the command line raise. -/
inductive po_error where
  | unknown_option (token : List Char)
  | ambiguous_option (token : List Char)
  | invalid_command_line (token : List Char)
  | too_many_positional_options
  | multiple_occurrences (name : List Char)
  | other (what : List Char)
  deriving DecidableEq, Repr

/-- The type `po::variables_map`: the options stored, each with the text of its value. -/
abbrev variables_map := List (List Char × List Char)

/-- The call `option_variables.count(name)`. -/
def variables_map.count (vm : variables_map) (name : List Char) : Nat :=
  if (vm.lookup name).isSome then 1 else 0

/-- The parts of the Boost libraries the resolver relies on: `filename` is
`fs::path(p).filename().string()`, and `store` is lines 65-69, the command line
parsed against an option table (one positional, `base`) and stored with the
defaults applied, or the `po::error` raised. -/
structure Boost where
  filename : List Char → List Char
  store : List option_description → List (List Char) → Except po_error variables_map

/-- Items written to `std::cerr` by the resolver: text, `e.what()` followed by
a newline, or the visible options printed under their caption. -/
inductive Diagnostic where
  | text (s : List Char)
  | what (e : po_error)
  | visible_options (caption : List Char)
  deriving DecidableEq, Repr

/-- The call `po::notify(option_variables)`: a required option (only `base` is
one) that is absent raises `required_option` carrying its name with the two
dashes; otherwise each stored value is assigned to the variable bound to its
option, and a variable whose option is not stored keeps its value. Returns
`input_path`, `output_path`, `algorithm` and `base_path`. -/
def notify (vm : variables_map) (input_path output_path algorithm : List Char) :
    Except (List Char) (List Char × List Char × List Char × List Char) :=
  match vm.lookup "base".toList with
  | none => .error "--base".toList
  | some base =>
    .ok ((vm.lookup "input".toList).getD input_path,
         (vm.lookup "output".toList).getD output_path,
         (vm.lookup "algorithm".toList).getD algorithm,
         base)

/-- The status a parent process sees after `std::exit(code)`: the low eight bits. -/
def exit_status (code : Int) : Nat := (code % 256).toNat

/-- What `parse_program_options` leaves to its caller when it returns. -/
structure Resolved where
  config : EngineConfig
  input_path : List Char
  output_path : List Char
  deriving DecidableEq, Repr

/-- The caption of the visible options (lines 54-58): empty when `argc` is 0. -/
def usage (B : Boost) (argv : List (List Char)) : List Char :=
  match argv with
  | [] => []
  | argv0 :: _ => "Usage: ".toList ++ B.filename argv0 ++ " <base.osrm> [<options>]".toList

/-- The function `parse_program_options` (lines 18-102): what it writes to
`std::cerr`, and either the termination of the process (`std::exit`, or an
exception nobody catches) or the configuration and the two paths it returns. -/
def parse_program_options (B : Boost) (argv : List (List Char)) (config : EngineConfig)
    (input_path output_path : List Char) : List Diagnostic × Except Termination Resolved :=
  let usage := usage B argv
  match B.store cmdline_options argv with
  | .error e =>
    ([Diagnostic.what e, Diagnostic.visible_options usage], .error (.exited (exit_status 2)))
  | .ok option_variables =>
    if option_variables.count "help".toList ≠ 0 then
      ([Diagnostic.visible_options usage], .error (.exited (exit_status EXIT_SUCCESS)))
    else
      match notify option_variables input_path output_path [] with
      | .error option_name =>
        match cmdline_options.find? (fun o => o.long_name == option_name.drop 2) with
        | none => ([Diagnostic.text "Error: ".toList], .error (.aborted .unknown_option))
        | some o =>
          ([Diagnostic.text ("Error: ".toList ++ o.description ++ " must be specified\n".toList),
            Diagnostic.visible_options usage], .error (.exited (exit_status 2)))
      | .ok (input_path, output_path, algorithm, base_path) =>
        if algorithm == "CH".toList || algorithm == "ch".toList then
          ([], .ok ⟨{ config with algorithm := Algorithm.CH, use_shared_memory := false,
                                  storage_config := base_path }, input_path, output_path⟩)
        else if algorithm == "MLD".toList || algorithm == "mld".toList then
          ([], .ok ⟨{ config with algorithm := Algorithm.MLD, use_shared_memory := false,
                                  storage_config := base_path }, input_path, output_path⟩)
        else
          ([Diagnostic.text ("Error: invalid algorithm ".toList ++ algorithm ++ "\n".toList)],
            .error (.exited (exit_status (-1))))

/-! ## A model of the Boost command line parser

The theorems about `parse_program_options` hold for every `Boost`. The model
below follows the default style of `po::command_line_parser` closely enough to
run the resolver on concrete command lines. -/

/-- Whether `p` is an initial part of `s`. -/
def starts_with : List Char → List Char → Bool
  | [], _ => true
  | _ :: _, [] => false
  | a :: p, b :: s => a == b && starts_with p s

/-- Finds an option by its long name: an exact match, else the only option the
name abbreviates (`allow_guessing`). -/
def find_long (options : List option_description) (name token : List Char) :
    Except po_error option_description :=
  match options.filter (fun o => o.long_name == name) with
  | o :: _ => .ok o
  | [] =>
    match options.filter (fun o => starts_with name o.long_name) with
    | [o] => .ok o
    | [] => .error (.unknown_option token)
    | _ => .error (.ambiguous_option token)

/-- Finds an option by its short name. -/
def find_short (options : List option_description) (c : Char) : Option option_description :=
  options.find? (fun o => o.short_name == c)

/-- The name and the adjacent value (after `=`) of a long option token without its dashes. -/
def long_name_and_value : List Char → List Char × Option (List Char)
  | [] => ([], none)
  | c :: cs =>
    if c = '=' then ([], some cs)
    else ((c :: (long_name_and_value cs).1), (long_name_and_value cs).2)

/-- Whether a token has the form of an option and names one of the table: such
a token is not taken as the value of the option before it. -/
def is_known_option (options : List option_description) : List Char → Bool
  | '-' :: '-' :: body =>
    match find_long options (long_name_and_value body).1 body with
    | .ok _ => !body.isEmpty
    | .error _ => false
  | '-' :: c :: _ => (find_short options c).isSome
  | _ => false

/-- The characters of a short option token after its dash (`allow_sticky`):
options without a value may be followed by further short options; an option
with a value takes the rest of the token as its value. Returns the options
read and, when the last one still lacks its value, that option. -/
def short_options (options : List option_description) :
    List Char → Except po_error (variables_map × Option option_description)
  | [] => .ok ([], none)
  | c :: adjacent =>
    match find_short options c with
    | none => .error (.unknown_option ['-', c])
    | some o =>
      if o.takes_value then
        if adjacent.isEmpty then .ok ([], some o) else .ok ([(o.long_name, adjacent)], none)
      else
        match short_options options adjacent with
        | .error e => .error e
        | .ok (found, pending) => .ok ((o.long_name, []) :: found, pending)

/-- The options and positional arguments of a command line, in order. An
option that needs a value and has none adjacent takes the next token, unless
that token is itself a known option. The only positional slot is `base`; a
second positional argument raises `too_many_positional_options`.
`only_positional` holds after the terminator `--`, `seen` after the first
positional argument. -/
def parse_tokens (options : List option_description) :
    Bool → Bool → List (List Char) → Except po_error variables_map
  | _, _, [] => .ok []
  | true, seen, token :: rest =>
    if seen then .error .too_many_positional_options
    else (parse_tokens options true true rest).map (fun found => ("base".toList, token) :: found)
  | false, seen, token :: rest =>
    match token with
    | ['-', '-'] => parse_tokens options true seen rest
    | '-' :: '-' :: body =>
      match find_long options (long_name_and_value body).1 token with
      | .error e => .error e
      | .ok o =>
        match o.takes_value, (long_name_and_value body).2 with
        | true, some [] => .error (.invalid_command_line token)
        | true, some v =>
          (parse_tokens options false seen rest).map (fun found => (o.long_name, v) :: found)
        | true, none =>
          match rest with
          | [] => .error (.invalid_command_line token)
          | v :: rest =>
            if is_known_option options v then .error (.invalid_command_line token)
            else (parse_tokens options false seen rest).map (fun found => (o.long_name, v) :: found)
        | false, some _ => .error (.invalid_command_line token)
        | false, none =>
          (parse_tokens options false seen rest).map (fun found => (o.long_name, []) :: found)
    | '-' :: c :: adjacent =>
      match short_options options (c :: adjacent) with
      | .error e => .error e
      | .ok (found1, none) =>
        (parse_tokens options false seen rest).map (fun found => found1 ++ found)
      | .ok (found1, some o) =>
        match rest with
        | [] => .error (.invalid_command_line token)
        | v :: rest =>
          if is_known_option options v then .error (.invalid_command_line token)
          else
            (parse_tokens options false seen rest).map
              (fun found => found1 ++ (o.long_name, v) :: found)
    | _ =>
      if seen then .error .too_many_positional_options
      else (parse_tokens options false true rest).map (fun found => ("base".toList, token) :: found)

/-- Stores parsed options in an empty map: an option given twice raises
`multiple_occurrences`; `algorithm` gets its default value `CH` when it was not
given. -/
def store_parsed : variables_map → variables_map → Except po_error variables_map
  | [], vm =>
    .ok (if (vm.lookup "algorithm".toList).isSome then vm
         else vm ++ [("algorithm".toList, "CH".toList)])
  | (name, value) :: rest, vm =>
    if (vm.lookup name).isSome then .error (.multiple_occurrences name)
    else store_parsed rest (vm ++ [(name, value)])

/-- The model of the Boost libraries: `filename` keeps what follows the last
`/`; `store` parses `argv[1..]` and stores the result. -/
def boost : Boost :=
  { filename := fun p => (p.reverse.takeWhile (fun c => c != '/')).reverse,
    store := fun options argv =>
      match parse_tokens options false false argv.tail with
      | .error e => .error e
      | .ok found => store_parsed found [] }

/-- A default-constructed `osrm::EngineConfig`, as `main` passes it. -/
def default_config : EngineConfig :=
  { algorithm := Algorithm.CH, use_shared_memory := true, storage_config := [] }

/-! ## Vocabulary of the specification -/

/-- A decimal number as the input format describes it: an optional sign, one
or more digits, and optionally a point followed by one or more digits. -/
def is_decimal_number (field : List Char) : Bool :=
  let body := (scan_sign field).2
  !(body.takeWhile isdigit).isEmpty &&
    match body.dropWhile isdigit with
    | [] => true
    | '.' :: fraction => !fraction.isEmpty && fraction.all isdigit
    | _ => false

/-- A numeric field: a decimal number that `atof` converts without a range error. -/
def numeric_field {D : Type} (P : Platform D) (field : List Char) : Bool :=
  is_decimal_number field && (atof P field 0).2 == 0

/-- A well-formed line: without its carriage return it splits on `,` into
exactly four numeric fields. -/
def well_formed_line {D : Type} (P : Platform D) (line : List Char) : Bool :=
  match split (remove_carriage_return line) with
  | [f0, f1, f2, f3] =>
    numeric_field P f0 && numeric_field P f1 && numeric_field P f2 && numeric_field P f3
  | _ => false

/-- The number of fields of a line, as the field-count check sees it. -/
def field_count (line : List Char) : Nat := (split (remove_carriage_return line)).length

/-- The `RouteResult` of the specification. -/
inductive RouteResult (D : Type) where
  | Ok (distance duration : D)
  | EngineError (code message : List Char)

/-- The JSON result `osrm` gives for `params` carries the route result `r`, in
the shape of the engine interface: status `Ok` with a first route that has the
numbers `distance` and `duration`, or status `Error` with the strings `code`
and `message`. -/
def carries {D : Type} (osrm : OSRM D) (params : RouteParameters D) : RouteResult D → Prop
  | .Ok distance duration =>
    (osrm.Route params).1 = Status.Ok ∧
    ∃ route rest,
      json.Object.at (osrm.Route params).2 "routes".toList
        = json.Value.Array (json.Value.Object route :: rest) ∧
      json.Object.at route "distance".toList = json.Value.Number distance ∧
      json.Object.at route "duration".toList = json.Value.Number duration
  | .EngineError code message =>
    (osrm.Route params).1 = Status.Error ∧
    json.Object.at (osrm.Route params).2 "code".toList = json.Value.String code ∧
    json.Object.at (osrm.Route params).2 "message".toList = json.Value.String message

/-- The engine `osrm` implements the engine interface with the results `engine`. -/
def Conforms {D : Type} (osrm : OSRM D) (engine : RouteParameters D → RouteResult D) : Prop :=
  ∀ params, carries osrm params (engine params)

/-- The request the main loop issues for a line with four fields. -/
def line_request {D : Type} (P : Platform D) (line : List Char) : Option (RouteParameters D) :=
  match split (remove_carriage_return line) with
  | [f0, f1, f2, f3] =>
    some (route_params (parse_coordinates P f0 f1 f2 f3).1 (parse_coordinates P f0 f1 f2 f3).2.1)
  | _ => none

/-- The output record the specification expects for a line: the line without
its carriage return, the rendered distance and the rendered duration, joined by
commas, when the engine result is `Ok`; none otherwise. -/
def expected_record {D : Type} (P : Platform D) (engine : RouteParameters D → RouteResult D)
    (line : List Char) : Option (List Char) :=
  match line_request P line with
  | none => none
  | some params =>
    match engine params with
    | .Ok distance duration =>
      some (remove_carriage_return line ++ ',' :: P.render distance ++ ',' :: P.render duration)
    | .EngineError _ _ => none

/-- Joins fields with commas. -/
def join_fields : List (List Char) → List Char
  | [] => []
  | [f] => f
  | f :: g :: fs => f ++ ',' :: join_fields (g :: fs)

/-- The first four comma-separated fields of an output record, joined by commas. -/
def first_four_fields (record : List Char) : List Char := join_fields ((split record).take 4)

/-! ## Sample platform and engines -/

/-- A platform on which a `double` is denoted by its decimal text: conversion
keeps the text read, never out of range, and rendering writes it back. -/
def text_platform : Platform (List Char) :=
  { zero := ['0'], strtod := fun subject => (subject, false), render := fun d => d }

/-- The JSON result of an engine for a route result (an `Ok` result has one route). -/
def to_json {D : Type} : RouteResult D → Status × json.Object D
  | .Ok distance duration =>
    (Status.Ok,
      [("code".toList, json.Value.String "Ok".toList),
       ("routes".toList, json.Value.Array
          [json.Value.Object [("distance".toList, json.Value.Number distance),
                              ("duration".toList, json.Value.Number duration)]])])
  | .EngineError code message =>
    (Status.Error,
      [("code".toList, json.Value.String code), ("message".toList, json.Value.String message)])

/-- The engine that answers every request with the JSON of `engine`. -/
def osrm_of {D : Type} (engine : RouteParameters D → RouteResult D) : OSRM D :=
  { Route := fun params => to_json (engine params) }

/-- An engine that finds the same route for every request. -/
def constant_engine : RouteParameters (List Char) → RouteResult (List Char) :=
  fun _ => .Ok "12345.6".toList "987.3".toList

/-- An engine that finds no route from the origin with latitude `0`, and the
same route for every other request. -/
def picky_engine : RouteParameters (List Char) → RouteResult (List Char) :=
  fun params =>
    match params.coordinates with
    | origin :: _ =>
      if origin.lat.value = ['0'] then .EngineError "NoRoute".toList "Impossible route".toList
      else .Ok "12345.6".toList "987.3".toList
    | [] => .EngineError "InvalidQuery".toList "No coordinates".toList

/-! ## Lemmas on `atof` and `calc_route` -/

theorem atof_value {D : Type} (P : Platform D) (field : List Char) (errno : Nat) :
    (atof P field errno).1 = (atof P field 0).1 := by
  unfold atof
  cases subject_sequence field <;> rfl

theorem atof_errno {D : Type} (P : Platform D) (field : List Char) (errno : Nat)
    (h : (atof P field 0).2 = 0) : (atof P field errno).2 = errno := by
  unfold atof at h ⊢
  cases hs : subject_sequence field with
  | none => rfl
  | some subject =>
    rw [hs] at h
    cases hr : (P.strtod subject).2 with
    | false => simp [hr]
    | true => simp [hr, ERANGE] at h

theorem numeric_field_errno {D : Type} (P : Platform D) (field : List Char)
    (h : numeric_field P field = true) : (atof P field 0).2 = 0 := by
  unfold numeric_field at h
  simp only [Bool.and_eq_true, beq_iff_eq] at h
  exact h.2

theorem parse_coordinates_errno {D : Type} (P : Platform D) (f0 f1 f2 f3 : List Char)
    (h0 : (atof P f0 0).2 = 0) (h1 : (atof P f1 0).2 = 0) (h2 : (atof P f2 0).2 = 0)
    (h3 : (atof P f3 0).2 = 0) : (parse_coordinates P f0 f1 f2 f3).2.2 = 0 := by
  simp only [parse_coordinates, h0, h1, h2, h3]

theorem parse_coordinates_values {D : Type} (P : Platform D) (f0 f1 f2 f3 : List Char) :
    (parse_coordinates P f0 f1 f2 f3).1 = ⟨⟨(atof P f1 0).1⟩, ⟨(atof P f0 0).1⟩⟩ ∧
    (parse_coordinates P f0 f1 f2 f3).2.1 = ⟨⟨(atof P f3 0).1⟩, ⟨(atof P f2 0).1⟩⟩ := by
  simp only [parse_coordinates]
  refine ⟨?_, ?_⟩
  · rw [atof_value P f1]
  · rw [atof_value P f3, atof_value P f2]

theorem calc_route_ok {D : Type} (osrm : OSRM D) (orig dest : Coordinate D) (distance duration : D)
    (h : carries osrm (route_params orig dest) (.Ok distance duration)) :
    calc_route osrm orig dest
      = ([route_params orig dest], .ok (CalcRoute.returned_0 distance duration, [])) := by
  obtain ⟨hs, route, rest, hr, hd, hu⟩ := h
  simp only [calc_route, OSRM.Route_logged, hs, hr, get_Array, at0, get_Object, bind,
    Except.bind, hd, hu, get_Number, pure, Except.pure]

theorem calc_route_error {D : Type} (osrm : OSRM D) (orig dest : Coordinate D)
    (code message : List Char)
    (h : carries osrm (route_params orig dest) (.EngineError code message)) :
    calc_route osrm orig dest = ([route_params orig dest], .ok (CalcRoute.returned_minus_1,
      [Cerr.text ("Error: ".toList ++ code ++ ". ".toList ++ message ++ "\n".toList)])) := by
  obtain ⟨hs, hc, hm⟩ := h
  simp only [calc_route, OSRM.Route_logged, hs, hc, hm, get_String, bind, Except.bind, pure,
    Except.pure]

theorem calc_route_requests {D : Type} (osrm : OSRM D) (orig dest : Coordinate D) :
    (calc_route osrm orig dest).1 = [route_params orig dest] := rfl

theorem calc_route_congr {D : Type} (osrm osrm2 : OSRM D) (orig dest : Coordinate D)
    (h : ∀ q ∈ (calc_route osrm orig dest).1, osrm2.Route q = osrm.Route q) :
    calc_route osrm2 orig dest = calc_route osrm orig dest := by
  have hq := h (route_params orig dest) (by rw [calc_route_requests]; exact List.mem_singleton_self _)
  simp only [calc_route, OSRM.Route_logged, hq]

theorem conforms_osrm_of {D : Type} (engine : RouteParameters D → RouteResult D) :
    Conforms (osrm_of engine) engine := by
  intro params
  cases h : engine params with
  | Ok distance duration =>
    refine ⟨?_, [("distance".toList, json.Value.Number distance),
      ("duration".toList, json.Value.Number duration)], [], ?_, ?_, ?_⟩
    · simp [osrm_of, h, to_json]
    · simp only [osrm_of, h, to_json]; rfl
    · rfl
    · rfl
  | EngineError code message =>
    refine ⟨?_, ?_, ?_⟩
    · simp [osrm_of, h, to_json]
    · simp only [osrm_of, h, to_json]; rfl
    · simp only [osrm_of, h, to_json]; rfl

/-! ## Lemmas on the main loop -/

theorem loop_body_malformed {D : Type} (P : Platform D) (osrm : OSRM D) (raw : List Char)
    (h : field_count raw ≠ 4) :
    loop_body P osrm raw =
      { out := [],
        cerr := [Cerr.text ("Malformed line: ".toList ++ remove_carriage_return raw ++ "\n".toList)],
        requests := [], stop := some (.exited EXIT_FAILURE) } := by
  unfold field_count at h
  unfold loop_body
  dsimp only
  split
  · next f0 f1 f2 f3 heq => rw [heq] at h; exact absurd rfl h
  · rfl

theorem main_loop_stop {D : Type} (P : Platform D) (osrm : OSRM D) (raw : List Char)
    (rest : List (List Char)) (bad : Bool) (t : Termination)
    (h : (loop_body P osrm raw).stop = some t) :
    main_loop P osrm (raw :: rest) bad =
      { out := (loop_body P osrm raw).out, cerr := (loop_body P osrm raw).cerr,
        requests := (loop_body P osrm raw).requests, termination := t } := by
  simp [main_loop, h, Run.after]

theorem main_loop_continue {D : Type} (P : Platform D) (osrm : OSRM D) (raw : List Char)
    (rest : List (List Char)) (bad : Bool) (h : (loop_body P osrm raw).stop = none) :
    main_loop P osrm (raw :: rest) bad
      = Run.after (loop_body P osrm raw) (main_loop P osrm rest bad) := by
  simp [main_loop, h]

theorem well_formed_line_fields {D : Type} (P : Platform D) (raw : List Char)
    (h : well_formed_line P raw = true) :
    ∃ f0 f1 f2 f3, split (remove_carriage_return raw) = [f0, f1, f2, f3] ∧
      numeric_field P f0 = true ∧ numeric_field P f1 = true ∧
      numeric_field P f2 = true ∧ numeric_field P f3 = true := by
  unfold well_formed_line at h
  split at h
  · next f0 f1 f2 f3 heq =>
    simp only [Bool.and_eq_true] at h
    exact ⟨f0, f1, f2, f3, heq, h.1.1.1, h.1.1.2, h.1.2, h.2⟩
  · exact absurd h (by simp)

theorem loop_body_query {D : Type} (P : Platform D) (osrm : OSRM D) (raw : List Char)
    (f0 f1 f2 f3 : List Char) (hs : split (remove_carriage_return raw) = [f0, f1, f2, f3])
    (he : (parse_coordinates P f0 f1 f2 f3).2.2 = 0) :
    loop_body P osrm raw =
      match (calc_route osrm (parse_coordinates P f0 f1 f2 f3).1
          (parse_coordinates P f0 f1 f2 f3).2.1).2 with
      | .error e =>
        { out := [], cerr := [],
          requests := (calc_route osrm (parse_coordinates P f0 f1 f2 f3).1
            (parse_coordinates P f0 f1 f2 f3).2.1).1,
          stop := some (.aborted e) }
      | .ok (CalcRoute.returned_0 distance duration, cerr) =>
        { out := [remove_carriage_return raw ++ ',' :: P.render distance
                    ++ ',' :: P.render duration],
          cerr := cerr,
          requests := (calc_route osrm (parse_coordinates P f0 f1 f2 f3).1
            (parse_coordinates P f0 f1 f2 f3).2.1).1,
          stop := none }
      | .ok (CalcRoute.returned_minus_1, cerr) =>
        { out := [], cerr := cerr,
          requests := (calc_route osrm (parse_coordinates P f0 f1 f2 f3).1
            (parse_coordinates P f0 f1 f2 f3).2.1).1,
          stop := none } := by
  unfold loop_body
  simp only [hs, he, ne_eq, not_true_eq_false, if_false]

theorem loop_body_conforming {D : Type} (P : Platform D) (osrm : OSRM D)
    (engine : RouteParameters D → RouteResult D) (hc : Conforms osrm engine) (raw : List Char)
    (f0 f1 f2 f3 : List Char) (hs : split (remove_carriage_return raw) = [f0, f1, f2, f3])
    (he : (parse_coordinates P f0 f1 f2 f3).2.2 = 0) :
    (loop_body P osrm raw).stop = none ∧
    (loop_body P osrm raw).out = (expected_record P engine raw).toList ∧
    (loop_body P osrm raw).requests = (line_request P raw).toList := by
  rw [loop_body_query P osrm raw f0 f1 f2 f3 hs he]
  have hq := hc (route_params (parse_coordinates P f0 f1 f2 f3).1
    (parse_coordinates P f0 f1 f2 f3).2.1)
  unfold expected_record line_request
  simp only [hs]
  cases hr : engine (route_params (parse_coordinates P f0 f1 f2 f3).1
    (parse_coordinates P f0 f1 f2 f3).2.1) with
  | Ok distance duration =>
    rw [hr] at hq
    rw [calc_route_ok osrm _ _ distance duration hq]
    exact ⟨rfl, rfl, rfl⟩
  | EngineError code message =>
    rw [hr] at hq
    rw [calc_route_error osrm _ _ code message hq]
    exact ⟨rfl, rfl, rfl⟩

theorem loop_body_well_formed {D : Type} (P : Platform D) (osrm : OSRM D)
    (engine : RouteParameters D → RouteResult D) (hc : Conforms osrm engine) (raw : List Char)
    (h : well_formed_line P raw = true) :
    (loop_body P osrm raw).stop = none ∧
    (loop_body P osrm raw).out = (expected_record P engine raw).toList ∧
    (loop_body P osrm raw).requests = (line_request P raw).toList := by
  obtain ⟨f0, f1, f2, f3, hs, h0, h1, h2, h3⟩ := well_formed_line_fields P raw h
  exact loop_body_conforming P osrm engine hc raw f0 f1 f2 f3 hs
    (parse_coordinates_errno P f0 f1 f2 f3 (numeric_field_errno P f0 h0)
      (numeric_field_errno P f1 h1) (numeric_field_errno P f2 h2) (numeric_field_errno P f3 h3))

theorem main_loop_append_of_success {D : Type} (P : Platform D) (osrm : OSRM D)
    (pre rest : List (List Char)) (bad : Bool)
    (h : (main_loop P osrm pre false).termination = .exited EXIT_SUCCESS) :
    main_loop P osrm (pre ++ rest) bad =
      { out := (main_loop P osrm pre false).out ++ (main_loop P osrm rest bad).out,
        cerr := (main_loop P osrm pre false).cerr ++ (main_loop P osrm rest bad).cerr,
        requests := (main_loop P osrm pre false).requests ++ (main_loop P osrm rest bad).requests,
        termination := (main_loop P osrm rest bad).termination } := by
  induction pre with
  | nil => simp [main_loop]
  | cons raw pre ih =>
    cases hstop : (loop_body P osrm raw).stop with
    | some t =>
      rw [main_loop_stop P osrm raw pre false t hstop] at h
      rw [List.cons_append, main_loop_stop P osrm raw (pre ++ rest) bad t hstop,
        main_loop_stop P osrm raw pre false t hstop]
      simp only at h
      subst h
      exfalso
      unfold loop_body at hstop
      dsimp only at hstop
      split at hstop
      · split at hstop
        · simp [EXIT_FAILURE, EXIT_SUCCESS] at hstop
        · split at hstop <;> simp at hstop
      · simp [EXIT_FAILURE, EXIT_SUCCESS] at hstop
    | none =>
      rw [main_loop_continue P osrm raw pre false hstop] at h
      rw [List.cons_append, main_loop_continue P osrm raw (pre ++ rest) bad hstop,
        main_loop_continue P osrm raw pre false hstop, ih h]
      simp [Run.after]

theorem main_loop_append_of_failure {D : Type} (P : Platform D) (osrm : OSRM D)
    (pre rest : List (List Char)) (bad : Bool)
    (h : (main_loop P osrm pre false).termination ≠ .exited EXIT_SUCCESS) :
    main_loop P osrm (pre ++ rest) bad = main_loop P osrm pre false := by
  induction pre with
  | nil => simp [main_loop] at h
  | cons raw pre ih =>
    cases hstop : (loop_body P osrm raw).stop with
    | some t =>
      rw [List.cons_append, main_loop_stop P osrm raw (pre ++ rest) bad t hstop,
        main_loop_stop P osrm raw pre false t hstop]
    | none =>
      rw [main_loop_continue P osrm raw pre false hstop] at h
      rw [List.cons_append, main_loop_continue P osrm raw (pre ++ rest) bad hstop,
        main_loop_continue P osrm raw pre false hstop, ih h]

theorem main_loop_well_formed {D : Type} (P : Platform D) (osrm : OSRM D)
    (engine : RouteParameters D → RouteResult D) (hc : Conforms osrm engine)
    (lines : List (List Char)) (bad : Bool)
    (h : ∀ line ∈ lines, well_formed_line P line = true) :
    (main_loop P osrm lines bad).out = lines.filterMap (expected_record P engine) ∧
    (main_loop P osrm lines bad).requests = lines.filterMap (line_request P) ∧
    (main_loop P osrm lines bad).termination = (main_loop P osrm [] bad).termination := by
  induction lines with
  | nil => cases bad <;> simp [main_loop]
  | cons raw lines ih =>
    obtain ⟨hstop, hout, hreq⟩ :=
      loop_body_well_formed P osrm engine hc raw (h raw (List.mem_cons_self _ _))
    obtain ⟨ih1, ih2, ih3⟩ := ih (fun line hl => h line (List.mem_cons_of_mem _ hl))
    rw [main_loop_continue P osrm raw lines bad hstop]
    simp only [Run.after, hout, hreq, ih1, ih2, ih3]
    refine ⟨?_, ?_, trivial⟩
    · cases he : expected_record P engine raw <;> simp [List.filterMap_cons, he]
    · cases he : line_request P raw <;> simp [List.filterMap_cons, he]

theorem main_loop_malformed {D : Type} (P : Platform D) (osrm : OSRM D)
    (pre post : List (List Char)) (raw : List Char) (bad : Bool) (h : field_count raw ≠ 4) :
    (main_loop P osrm (pre ++ raw :: post) bad).termination ≠ .exited 0 ∧
    (main_loop P osrm (pre ++ raw :: post) bad).out = (main_loop P osrm pre false).out ∧
    (main_loop P osrm (pre ++ raw :: post) bad).requests
      = (main_loop P osrm pre false).requests := by
  have hb := loop_body_malformed P osrm raw h
  have hm := main_loop_stop P osrm raw post bad (.exited EXIT_FAILURE) (by rw [hb])
  by_cases hs : (main_loop P osrm pre false).termination = .exited EXIT_SUCCESS
  · rw [main_loop_append_of_success P osrm pre (raw :: post) bad hs, hm, hb]
    simp [EXIT_FAILURE]
  · rw [main_loop_append_of_failure P osrm pre (raw :: post) bad hs]
    exact ⟨hs, rfl, rfl⟩

theorem loop_body_requests {D : Type} (P : Platform D) (osrm : OSRM D) (raw : List Char)
    (q : RouteParameters D) (hq : q ∈ (loop_body P osrm raw).requests) :
    ∃ f0 f1 f2 f3, split (remove_carriage_return raw) = [f0, f1, f2, f3] ∧
      q = route_params (parse_coordinates P f0 f1 f2 f3).1 (parse_coordinates P f0 f1 f2 f3).2.1 := by
  unfold loop_body at hq
  dsimp only at hq
  split at hq
  · next f0 f1 f2 f3 heq =>
    refine ⟨f0, f1, f2, f3, heq, ?_⟩
    split at hq
    · simp at hq
    · split at hq <;> simpa [calc_route_requests] using hq
  · simp at hq

theorem loop_body_congr {D : Type} (P : Platform D) (osrm osrm2 : OSRM D) (raw : List Char)
    (h : ∀ q ∈ (loop_body P osrm raw).requests, osrm2.Route q = osrm.Route q) :
    loop_body P osrm2 raw = loop_body P osrm raw := by
  cases hs : split (remove_carriage_return raw) with
  | nil => unfold loop_body; simp only [hs]
  | cons f0 t0 =>
    cases t0 with
    | nil => unfold loop_body; simp only [hs]
    | cons f1 t1 =>
      cases t1 with
      | nil => unfold loop_body; simp only [hs]
      | cons f2 t2 =>
        cases t2 with
        | nil => unfold loop_body; simp only [hs]
        | cons f3 t3 =>
          cases t3 with
          | cons f4 t4 => unfold loop_body; simp only [hs]
          | nil =>
            by_cases he : (parse_coordinates P f0 f1 f2 f3).2.2 = 0
            · have hreq : (loop_body P osrm raw).requests
                  = (calc_route osrm (parse_coordinates P f0 f1 f2 f3).1
                      (parse_coordinates P f0 f1 f2 f3).2.1).1 := by
                rw [loop_body_query P osrm raw f0 f1 f2 f3 hs he]
                split <;> rfl
              rw [hreq] at h
              rw [loop_body_query P osrm2 raw f0 f1 f2 f3 hs he,
                loop_body_query P osrm raw f0 f1 f2 f3 hs he, calc_route_congr osrm osrm2 _ _ h]
            · unfold loop_body
              simp only [hs, he, ne_eq, not_false_eq_true, if_true]

theorem main_loop_requests {D : Type} (P : Platform D) (osrm : OSRM D)
    (lines : List (List Char)) (bad : Bool) (q : RouteParameters D)
    (hq : q ∈ (main_loop P osrm lines bad).requests) :
    ∃ raw ∈ lines, q ∈ (loop_body P osrm raw).requests := by
  induction lines with
  | nil => cases bad <;> simp [main_loop] at hq
  | cons raw lines ih =>
    cases hstop : (loop_body P osrm raw).stop with
    | some t =>
      rw [main_loop_stop P osrm raw lines bad t hstop] at hq
      exact ⟨raw, List.mem_cons_self _ _, hq⟩
    | none =>
      rw [main_loop_continue P osrm raw lines bad hstop] at hq
      simp only [Run.after, List.mem_append] at hq
      rcases hq with hq | hq
      · exact ⟨raw, List.mem_cons_self _ _, hq⟩
      · obtain ⟨r, hr, hqr⟩ := ih hq
        exact ⟨r, List.mem_cons_of_mem _ hr, hqr⟩

theorem main_loop_congr {D : Type} (P : Platform D) (osrm osrm2 : OSRM D)
    (lines : List (List Char)) (bad : Bool)
    (h : ∀ q ∈ (main_loop P osrm lines bad).requests, osrm2.Route q = osrm.Route q) :
    main_loop P osrm2 lines bad = main_loop P osrm lines bad := by
  induction lines with
  | nil => rfl
  | cons raw lines ih =>
    cases hstop : (loop_body P osrm raw).stop with
    | some t =>
      rw [main_loop_stop P osrm raw lines bad t hstop] at h
      have hb := loop_body_congr P osrm osrm2 raw h
      rw [main_loop_stop P osrm raw lines bad t hstop,
        main_loop_stop P osrm2 raw lines bad t (by rw [hb]; exact hstop), hb]
    | none =>
      rw [main_loop_continue P osrm raw lines bad hstop] at h
      simp only [Run.after, List.mem_append] at h
      have hb := loop_body_congr P osrm osrm2 raw (fun q hq => h q (Or.inl hq))
      rw [main_loop_continue P osrm raw lines bad hstop,
        main_loop_continue P osrm2 raw lines bad (by rw [hb]; exact hstop), hb,
        ih (fun q hq => h q (Or.inr hq))]

/-! ## The claims about the main loop -/

/-- C1. When every input line is well formed (four numeric fields) and the
engine implements the engine interface, the records written are exactly, in
input order, one per line whose engine result is `Ok`: the line without its
carriage return, then `,`, the rendered distance, `,`, the rendered duration. -/
theorem output_of_well_formed_input {D : Type} (P : Platform D) (osrm : OSRM D)
    (engine : RouteParameters D → RouteResult D) (hc : Conforms osrm engine)
    (lines : List (List Char)) (bad : Bool)
    (h : ∀ line ∈ lines, well_formed_line P line = true) :
    (main_loop P osrm lines bad).out = lines.filterMap (expected_record P engine) :=
  (main_loop_well_formed P osrm engine hc lines bad h).1

/-- The example of C1, with a line the engine refuses and a line ending in a carriage return. -/
theorem output_of_well_formed_input_witness :
    (∀ line ∈ ["52.5,13.4,52.6,13.5".toList, "0,1,2,3".toList, "-1.5,+2,3.25,4\r".toList],
        well_formed_line text_platform line = true) ∧
    Conforms (osrm_of picky_engine) picky_engine ∧
    (main_loop text_platform (osrm_of picky_engine)
        ["52.5,13.4,52.6,13.5".toList, "0,1,2,3".toList, "-1.5,+2,3.25,4\r".toList] false).out
      = ["52.5,13.4,52.6,13.5,12345.6,987.3".toList, "-1.5,+2,3.25,4,12345.6,987.3".toList] :=
  ⟨by decide, conforms_osrm_of picky_engine,
    (output_of_well_formed_input text_platform (osrm_of picky_engine) picky_engine
      (conforms_osrm_of picky_engine) _ false (by decide)).trans rfl⟩

/-- C2. A line whose field count is not 4 ends the process with a non-zero
status, whatever the lines before it, the lines after it and the engine are,
and the output is the output of the lines before it: nothing is written for
that line or for any line after it. -/
theorem malformed_line_is_fatal {D : Type} (P : Platform D) (osrm : OSRM D)
    (pre post : List (List Char)) (raw : List Char) (bad : Bool) (h : field_count raw ≠ 4) :
    (main_loop P osrm (pre ++ raw :: post) bad).termination ≠ .exited 0 ∧
    (main_loop P osrm (pre ++ raw :: post) bad).out = (main_loop P osrm pre false).out :=
  ⟨(main_loop_malformed P osrm pre post raw bad h).1,
   (main_loop_malformed P osrm pre post raw bad h).2.1⟩

/-- The example of C2: a line with three fields, followed by a good line. -/
theorem malformed_line_is_fatal_witness :
    field_count "52.5,13.4,52.6".toList ≠ 4 ∧
    (main_loop text_platform (osrm_of constant_engine)
        ([] ++ "52.5,13.4,52.6".toList :: ["1,2,3,4".toList]) false).termination ≠ .exited 0 ∧
    (main_loop text_platform (osrm_of constant_engine)
        ([] ++ "52.5,13.4,52.6".toList :: ["1,2,3,4".toList]) false).out = [] :=
  ⟨by decide,
   malformed_line_is_fatal text_platform (osrm_of constant_engine) [] ["1,2,3,4".toList]
     "52.5,13.4,52.6".toList false (by decide)⟩

/-- C3. When every input line is well formed and the engine implements the
engine interface, a line whose engine result is `Error` writes no record, the
lines after it are processed as they would be on their own, and the process
ends with status 0 when the input ends cleanly. -/
theorem engine_error_skips_record {D : Type} (P : Platform D) (osrm : OSRM D)
    (engine : RouteParameters D → RouteResult D) (hc : Conforms osrm engine)
    (pre post : List (List Char)) (raw : List Char) (params : RouteParameters D)
    (code message : List Char)
    (h : ∀ line ∈ pre ++ raw :: post, well_formed_line P line = true)
    (hreq : line_request P raw = some params)
    (herr : engine params = .EngineError code message) :
    (main_loop P osrm (pre ++ raw :: post) false).out
      = (main_loop P osrm pre false).out ++ (main_loop P osrm post false).out ∧
    (main_loop P osrm (pre ++ raw :: post) false).termination = .exited 0 := by
  have hpre : ∀ line ∈ pre, well_formed_line P line = true :=
    fun line hl => h line (List.mem_append_left _ hl)
  have hraw : well_formed_line P raw = true :=
    h raw (List.mem_append_right _ (List.mem_cons_self _ _))
  have hs : (main_loop P osrm pre false).termination = .exited EXIT_SUCCESS :=
    (main_loop_well_formed P osrm engine hc pre false hpre).2.2
  obtain ⟨hstop, hout, _⟩ := loop_body_well_formed P osrm engine hc raw hraw
  have hnone : expected_record P engine raw = none := by
    unfold expected_record
    rw [hreq]
    simp only [herr]
  refine ⟨?_, (main_loop_well_formed P osrm engine hc _ false h).2.2⟩
  rw [main_loop_append_of_success P osrm pre (raw :: post) false hs,
    main_loop_continue P osrm raw post false hstop]
  simp [Run.after, hout, hnone]

/-- The example of C3: a line the engine refuses, followed by a line it routes. -/
theorem engine_error_skips_record_witness :
    (∀ line ∈ ["0,1,2,3".toList, "52.5,13.4,52.6,13.5".toList],
        well_formed_line text_platform line = true) ∧
    picky_engine (route_params ⟨⟨['1']⟩, ⟨['0']⟩⟩ ⟨⟨['3']⟩, ⟨['2']⟩⟩)
      = .EngineError "NoRoute".toList "Impossible route".toList ∧
    (main_loop text_platform (osrm_of picky_engine)
        ["0,1,2,3".toList, "52.5,13.4,52.6,13.5".toList] false).out
      = ["52.5,13.4,52.6,13.5,12345.6,987.3".toList] ∧
    (main_loop text_platform (osrm_of picky_engine)
        ["0,1,2,3".toList, "52.5,13.4,52.6,13.5".toList] false).termination = .exited 0 :=
  ⟨by decide, rfl,
   engine_error_skips_record text_platform (osrm_of picky_engine) picky_engine
     (conforms_osrm_of picky_engine) [] ["52.5,13.4,52.6,13.5".toList] "0,1,2,3".toList
     (route_params ⟨⟨['1']⟩, ⟨['0']⟩⟩ ⟨⟨['3']⟩, ⟨['2']⟩⟩)
     "NoRoute".toList "Impossible route".toList (by decide) rfl rfl⟩

/-- C4 (the code does not do this). A field that is not a number is not
detected: `atof` gives zero for `abc` and the value of `12` for `12abc`, and in
neither case touches `errno` on account of the text that is not a number; the
line `52.5,13.4,52.6,abc` is therefore queried with destination longitude zero,
its record is written, and the process ends with status 0. -/
theorem non_numeric_field_not_detected :
    (∀ (D : Type) (P : Platform D) (errno : Nat),
        atof P "abc".toList errno = (P.zero, errno) ∧
        atof P [] errno = (P.zero, errno) ∧
        atof P "12abc".toList errno = atof P "12".toList errno) ∧
    main_loop text_platform (osrm_of constant_engine) ["52.5,13.4,52.6,abc".toList] false
      = { out := ["52.5,13.4,52.6,abc,12345.6,987.3".toList],
          cerr := [],
          requests := [route_params ⟨⟨"13.4".toList⟩, ⟨"52.5".toList⟩⟩
                                    ⟨⟨text_platform.zero⟩, ⟨"52.6".toList⟩⟩],
          termination := .exited 0 } :=
  ⟨fun _ _ _ => ⟨rfl, rfl, rfl⟩, rfl⟩

/-- C5. Every request handed to the engine (the log of the calls `osrm.Route`
that `calc_route` makes) comes from an input line with four fields
`f0,f1,f2,f3` and holds exactly two waypoints, origin then destination; the
origin has latitude `atof f0` and longitude `atof f1`, the destination has
latitude `atof f2` and longitude `atof f3`; no alternative route is asked for.
The logged requests are all the run asks of the engine: an engine that answers
them in the same way gives the same run. -/
theorem request_axis_order {D : Type} (P : Platform D) (osrm : OSRM D)
    (lines : List (List Char)) (bad : Bool) (q : RouteParameters D)
    (hq : q ∈ (main_loop P osrm lines bad).requests) :
    (∃ raw ∈ lines, ∃ f0 f1 f2 f3 origin destination,
      split (remove_carriage_return raw) = [f0, f1, f2, f3] ∧
      q.coordinates = [origin, destination] ∧ q.alternatives = 0 ∧
      origin.lat.value = (atof P f0 0).1 ∧ origin.lon.value = (atof P f1 0).1 ∧
      destination.lat.value = (atof P f2 0).1 ∧ destination.lon.value = (atof P f3 0).1) ∧
    (∀ osrm2 : OSRM D,
      (∀ q2 ∈ (main_loop P osrm lines bad).requests, osrm2.Route q2 = osrm.Route q2) →
      main_loop P osrm2 lines bad = main_loop P osrm lines bad) := by
  refine ⟨?_, fun osrm2 h => main_loop_congr P osrm osrm2 lines bad h⟩
  obtain ⟨raw, hraw, hqr⟩ := main_loop_requests P osrm lines bad q hq
  obtain ⟨f0, f1, f2, f3, hs, rfl⟩ := loop_body_requests P osrm raw q hqr
  obtain ⟨h1, h2⟩ := parse_coordinates_values P f0 f1 f2 f3
  refine ⟨raw, hraw, f0, f1, f2, f3, _, _, hs, rfl, rfl, ?_, ?_, ?_, ?_⟩
  · rw [h1]
  · rw [h1]
  · rw [h2]
  · rw [h2]

/-- The request issued for `52.5,13.4,52.6,13.5`. -/
theorem request_axis_order_witness :
    (main_loop text_platform (osrm_of constant_engine)
        ["52.5,13.4,52.6,13.5".toList] false).requests
      = [route_params ⟨⟨"13.4".toList⟩, ⟨"52.5".toList⟩⟩ ⟨⟨"13.5".toList⟩, ⟨"52.6".toList⟩⟩] ∧
    (∃ raw ∈ ["52.5,13.4,52.6,13.5".toList], ∃ f0 f1 f2 f3 origin destination,
      split (remove_carriage_return raw) = [f0, f1, f2, f3] ∧
      (route_params (D := List Char) ⟨⟨"13.4".toList⟩, ⟨"52.5".toList⟩⟩
          ⟨⟨"13.5".toList⟩, ⟨"52.6".toList⟩⟩).coordinates = [origin, destination] ∧
      (route_params (D := List Char) ⟨⟨"13.4".toList⟩, ⟨"52.5".toList⟩⟩
          ⟨⟨"13.5".toList⟩, ⟨"52.6".toList⟩⟩).alternatives = 0 ∧
      origin.lat.value = (atof text_platform f0 0).1 ∧
      origin.lon.value = (atof text_platform f1 0).1 ∧
      destination.lat.value = (atof text_platform f2 0).1 ∧
      destination.lon.value = (atof text_platform f3 0).1) ∧
    (∀ osrm2 : OSRM (List Char),
      (∀ q2 ∈ (main_loop text_platform (osrm_of constant_engine)
          ["52.5,13.4,52.6,13.5".toList] false).requests,
        osrm2.Route q2 = (osrm_of constant_engine).Route q2) →
      main_loop text_platform osrm2 ["52.5,13.4,52.6,13.5".toList] false
        = main_loop text_platform (osrm_of constant_engine)
            ["52.5,13.4,52.6,13.5".toList] false) :=
  ⟨rfl,
   request_axis_order text_platform (osrm_of constant_engine) ["52.5,13.4,52.6,13.5".toList]
     false _ (List.mem_singleton_self _)⟩

/-- C10. No rollback: when a line whose field count is not 4 follows the lines
`pre`, the records written by the run are exactly those the run on `pre` alone
writes, and the engine gets no request beyond those of `pre`. This holds for
every `pre`, so in particular when all its lines have four numeric fields. -/
theorem no_rollback_on_malformed_line {D : Type} (P : Platform D) (osrm : OSRM D)
    (pre post : List (List Char)) (raw : List Char) (bad : Bool) (h : field_count raw ≠ 4) :
    (main_loop P osrm (pre ++ raw :: post) bad).out = (main_loop P osrm pre false).out ∧
    (main_loop P osrm (pre ++ raw :: post) bad).requests
      = (main_loop P osrm pre false).requests :=
  (main_loop_malformed P osrm pre post raw bad h).2

/-- Two good lines, a line with five fields, and a line that is never read. -/
theorem no_rollback_on_malformed_line_witness :
    (∀ line ∈ ["52.5,13.4,52.6,13.5".toList, "1,2,3,4\r".toList],
        well_formed_line text_platform line = true) ∧
    field_count "1,2,3,4,5".toList ≠ 4 ∧
    (main_loop text_platform (osrm_of constant_engine)
        (["52.5,13.4,52.6,13.5".toList, "1,2,3,4\r".toList]
          ++ "1,2,3,4,5".toList :: ["5,6,7,8".toList]) false).out
      = ["52.5,13.4,52.6,13.5,12345.6,987.3".toList, "1,2,3,4,12345.6,987.3".toList] :=
  ⟨by decide, by decide,
   (no_rollback_on_malformed_line text_platform (osrm_of constant_engine)
     ["52.5,13.4,52.6,13.5".toList, "1,2,3,4\r".toList] ["5,6,7,8".toList]
     "1,2,3,4,5".toList false (by decide)).1⟩

/-! ## Lemmas on `split` and on decimal numbers -/

theorem split_ne_nil (l : List Char) : split l ≠ [] := by
  cases l with
  | nil => simp [split]
  | cons c cs =>
    unfold split
    split
    · simp
    · split <;> simp

theorem join_fields_cons_char (c : Char) (f : List Char) (fs : List (List Char)) :
    join_fields ((c :: f) :: fs) = c :: join_fields (f :: fs) := by
  cases fs <;> rfl

theorem join_fields_split (l : List Char) : join_fields (split l) = l := by
  induction l with
  | nil => rfl
  | cons c cs ih =>
    unfold split
    split
    · next hc =>
      cases hs : split cs with
      | nil => exact absurd hs (split_ne_nil cs)
      | cons g fs =>
        rw [hs] at ih
        simp [join_fields, ih, hc]
    · cases hs : split cs with
      | nil => exact absurd hs (split_ne_nil cs)
      | cons g fs =>
        rw [hs] at ih
        simp only [join_fields_cons_char, ih]

theorem split_cons_comma (cs : List Char) : split (',' :: cs) = [] :: split cs := by
  rw [split]
  simp

theorem split_cons_other (c : Char) (cs g : List Char) (fs : List (List Char)) (hc : c ≠ ',')
    (hs : split cs = g :: fs) : split (c :: cs) = (c :: g) :: fs := by
  rw [split]
  simp [hc, hs]

theorem split_append_comma (x y : List Char) : split (x ++ ',' :: y) = split x ++ split y := by
  induction x with
  | nil => rw [List.nil_append, split_cons_comma]; rfl
  | cons c xs ih =>
    rw [List.cons_append]
    by_cases hc : c = ','
    · subst hc
      rw [split_cons_comma, split_cons_comma, ih]
      rfl
    · cases hs : split xs with
      | nil => exact absurd hs (split_ne_nil xs)
      | cons g fs =>
        rw [split_cons_other c xs g fs hc hs,
          split_cons_other c (xs ++ ',' :: y) g (fs ++ split y) hc (by rw [ih, hs]; rfl)]
        rfl

theorem first_four_fields_of_record (line rest f0 f1 f2 f3 : List Char)
    (h : split line = [f0, f1, f2, f3]) : first_four_fields (line ++ ',' :: rest) = line := by
  unfold first_four_fields
  rw [split_append_comma, h]
  have : List.take 4 ([f0, f1, f2, f3] ++ split rest) = [f0, f1, f2, f3] := rfl
  rw [this, ← h, join_fields_split]

theorem scan_sign_append (f : List Char) : (scan_sign f).1 ++ (scan_sign f).2 = f := by
  unfold scan_sign
  split <;> rfl

theorem scan_sign_mem (f : List Char) (c : Char) (h : c ∈ (scan_sign f).1) :
    c = '+' ∨ c = '-' := by
  unfold scan_sign at h
  split at h <;> simp at h <;> simp [h]

theorem decimal_number_chars (f : List Char) (h : is_decimal_number f = true) :
    f ≠ [] ∧ ∀ c ∈ f, c ≠ '\r' := by
  unfold is_decimal_number at h
  simp only [Bool.and_eq_true, Bool.not_eq_true', List.isEmpty_eq_false] at h
  obtain ⟨hd, hrest⟩ := h
  have hbody := List.takeWhile_append_dropWhile isdigit (scan_sign f).2
  have hf := scan_sign_append f
  constructor
  · intro hnil
    rw [hnil] at hd
    simp [scan_sign] at hd
  · intro c hc hcr
    subst hcr
    rw [← hf, ← hbody] at hc
    simp only [List.mem_append] at hc
    rcases hc with hc | hc | hc
    · rcases scan_sign_mem f _ hc with h1 | h1 <;> exact absurd h1 (by decide)
    · exact absurd (List.mem_takeWhile_imp hc) (by decide)
    · split at hrest
      · next heq => rw [heq] at hc; simp at hc
      · next fraction heq =>
        rw [heq] at hc
        simp only [Bool.and_eq_true, List.all_eq_true] at hrest
        rcases List.mem_cons.1 hc with h1 | h1
        · exact absurd h1 (by decide)
        · exact absurd (hrest.2 _ h1) (by decide)
      · exact absurd hrest (by simp)

theorem remove_carriage_return_idem_of_decimal (line f0 f1 f2 f3 : List Char)
    (hs : split line = [f0, f1, f2, f3]) (h3 : is_decimal_number f3 = true) :
    remove_carriage_return line = line := by
  obtain ⟨hne, hcr⟩ := decimal_number_chars f3 h3
  have hl : line = f0 ++ ',' :: (f1 ++ ',' :: (f2 ++ ',' :: f3)) := by
    have := join_fields_split line
    rw [hs] at this
    exact this.symm
  cases hlast : f3.getLast? with
  | none => exact absurd (List.getLast?_eq_none_iff.1 hlast) hne
  | some d =>
    have hd : d ≠ '\r' := hcr d (List.mem_of_getLast?_eq_some hlast)
    have hl2 : line = (f0 ++ ',' :: (f1 ++ ',' :: (f2 ++ [',']))) ++ f3 := by
      rw [hl]
      simp
    have : line.getLast? = some d := by
      rw [hl2, List.getLast?_append, hlast]
      rfl
    unfold remove_carriage_return
    rw [this]
    simp [hd]

theorem well_formed_line_without_carriage_return {D : Type} (P : Platform D) (raw : List Char)
    (h : well_formed_line P raw = true) :
    remove_carriage_return (remove_carriage_return raw) = remove_carriage_return raw ∧
    well_formed_line P (remove_carriage_return raw) = true ∧
    line_request P (remove_carriage_return raw) = line_request P raw := by
  obtain ⟨f0, f1, f2, f3, hs, _, _, _, h3⟩ := well_formed_line_fields P raw h
  have hdec : is_decimal_number f3 = true := by
    unfold numeric_field at h3
    simp only [Bool.and_eq_true] at h3
    exact h3.1
  have hidem := remove_carriage_return_idem_of_decimal _ f0 f1 f2 f3 hs hdec
  refine ⟨hidem, ?_, ?_⟩
  · unfold well_formed_line at h ⊢
    rw [hidem]
    exact h
  · unfold line_request
    rw [hidem]

/-- C9. For a well-formed line whose engine result is `Ok`, the record written
has the line (without its carriage return) as its first four fields; running
the loop again on those four fields issues the same request and writes the
same four fields followed by the same distance and duration texts. -/
theorem rerun_on_own_output {D : Type} (P : Platform D) (osrm : OSRM D)
    (engine : RouteParameters D → RouteResult D) (hc : Conforms osrm engine)
    (raw : List Char) (params : RouteParameters D) (distance duration : D)
    (hwf : well_formed_line P raw = true) (hreq : line_request P raw = some params)
    (hok : engine params = .Ok distance duration) :
    (main_loop P osrm [raw] false).out
      = [remove_carriage_return raw ++ ',' :: P.render distance ++ ',' :: P.render duration] ∧
    first_four_fields
        (remove_carriage_return raw ++ ',' :: P.render distance ++ ',' :: P.render duration)
      = remove_carriage_return raw ∧
    (main_loop P osrm
        [first_four_fields
          (remove_carriage_return raw ++ ',' :: P.render distance ++ ',' :: P.render duration)]
        false).out
      = [first_four_fields
            (remove_carriage_return raw ++ ',' :: P.render distance ++ ',' :: P.render duration)
          ++ ',' :: P.render distance ++ ',' :: P.render duration] ∧
    (main_loop P osrm
        [first_four_fields
          (remove_carriage_return raw ++ ',' :: P.render distance ++ ',' :: P.render duration)]
        false).requests = (main_loop P osrm [raw] false).requests := by
  obtain ⟨f0, f1, f2, f3, hs, _, _, _, _⟩ := well_formed_line_fields P raw hwf
  obtain ⟨hidem, hwf2, hreq2⟩ := well_formed_line_without_carriage_return P raw hwf
  have hfour : first_four_fields
      (remove_carriage_return raw ++ ',' :: P.render distance ++ ',' :: P.render duration)
      = remove_carriage_return raw := by
    rw [List.append_assoc, List.cons_append]
    exact first_four_fields_of_record (remove_carriage_return raw)
      (P.render distance ++ ',' :: P.render duration) f0 f1 f2 f3 hs
  have hrec : expected_record P engine raw = some
      (remove_carriage_return raw ++ ',' :: P.render distance ++ ',' :: P.render duration) := by
    unfold expected_record
    rw [hreq]
    simp only [hok]
  have hrec2 : expected_record P engine (remove_carriage_return raw) = some
      (remove_carriage_return raw ++ ',' :: P.render distance ++ ',' :: P.render duration) := by
    unfold expected_record
    rw [hreq2, hreq, hidem]
    simp only [hok]
  obtain ⟨h1, r1, _⟩ := main_loop_well_formed P osrm engine hc [raw] false
    (fun line hl => by rw [List.mem_singleton.1 hl]; exact hwf)
  obtain ⟨h2, r2, _⟩ := main_loop_well_formed P osrm engine hc [remove_carriage_return raw] false
    (fun line hl => by rw [List.mem_singleton.1 hl]; exact hwf2)
  refine ⟨?_, hfour, ?_, ?_⟩
  · rw [h1]
    simp [List.filterMap_cons, hrec]
  · rw [hfour, h2]
    simp [List.filterMap_cons, hrec2]
  · rw [hfour, r1, r2]
    simp [List.filterMap_cons, hreq2]

/-- The example line, ending in a carriage return, run twice. -/
theorem rerun_on_own_output_witness :
    well_formed_line text_platform "52.5,13.4,52.6,13.5\r".toList = true ∧
    (main_loop text_platform (osrm_of constant_engine) ["52.5,13.4,52.6,13.5\r".toList] false).out
      = ["52.5,13.4,52.6,13.5,12345.6,987.3".toList] ∧
    first_four_fields "52.5,13.4,52.6,13.5,12345.6,987.3".toList = "52.5,13.4,52.6,13.5".toList ∧
    (main_loop text_platform (osrm_of constant_engine) ["52.5,13.4,52.6,13.5".toList] false).out
      = ["52.5,13.4,52.6,13.5,12345.6,987.3".toList] ∧
    (main_loop text_platform (osrm_of constant_engine)
        ["52.5,13.4,52.6,13.5".toList] false).requests
      = (main_loop text_platform (osrm_of constant_engine)
        ["52.5,13.4,52.6,13.5\r".toList] false).requests :=
  ⟨by decide,
   rerun_on_own_output text_platform (osrm_of constant_engine) constant_engine
     (conforms_osrm_of constant_engine) "52.5,13.4,52.6,13.5\r".toList
     (route_params ⟨⟨"13.4".toList⟩, ⟨"52.5".toList⟩⟩ ⟨⟨"13.5".toList⟩, ⟨"52.6".toList⟩⟩)
     "12345.6".toList "987.3".toList (by decide) rfl rfl⟩

/-! ## The claims about the option resolver -/

/-- C6 (the code does not do this). The algorithm name is compared with the
four spellings `CH`, `ch`, `MLD` and `mld` only: these are accepted, while a
mixed-case spelling such as `Ch` or `mLd` is reported as an invalid algorithm
and ends the process. -/
theorem mixed_case_algorithm_rejected :
    (parse_program_options boost
        ["osrm-batchroute".toList, "map.osrm".toList, "--algorithm".toList, "Ch".toList]
        default_config [] [])
      = ([Diagnostic.text "Error: invalid algorithm Ch\n".toList], .error (.exited 255)) ∧
    (parse_program_options boost
        ["osrm-batchroute".toList, "map.osrm".toList, "-a".toList, "mLd".toList]
        default_config [] [])
      = ([Diagnostic.text "Error: invalid algorithm mLd\n".toList], .error (.exited 255)) ∧
    (parse_program_options boost
        ["osrm-batchroute".toList, "map.osrm".toList, "-a".toList, "ch".toList]
        default_config [] [])
      = ([], .ok ⟨⟨Algorithm.CH, false, "map.osrm".toList⟩, [], []⟩) ∧
    (parse_program_options boost
        ["osrm-batchroute".toList, "map.osrm".toList, "-a".toList, "MLD".toList]
        default_config [] [])
      = ([], .ok ⟨⟨Algorithm.MLD, false, "map.osrm".toList⟩, [], []⟩) :=
  ⟨rfl, rfl, rfl, rfl⟩

/-- C7 (the code does not do this). An unparseable command line and a missing
data-source path both print usage and end the process with status 2; an
unrecognised algorithm name prints one line, no usage, and ends the process
through `std::exit(-1)`, which is status 255. -/
theorem invalid_algorithm_exit_status :
    (parse_program_options boost ["osrm-batchroute".toList, "map.osrm".toList, "--bogus".toList]
        default_config [] [])
      = ([Diagnostic.what (.unknown_option "--bogus".toList),
          Diagnostic.visible_options "Usage: osrm-batchroute <base.osrm> [<options>]".toList],
         .error (.exited 2)) ∧
    (parse_program_options boost ["osrm-batchroute".toList] default_config [] [])
      = ([Diagnostic.text "Error: base path to .osrm file must be specified\n".toList,
          Diagnostic.visible_options "Usage: osrm-batchroute <base.osrm> [<options>]".toList],
         .error (.exited 2)) ∧
    (parse_program_options boost
        ["osrm-batchroute".toList, "map.osrm".toList, "--algorithm".toList, "foo".toList]
        default_config [] [])
      = ([Diagnostic.text "Error: invalid algorithm foo\n".toList], .error (.exited 255)) :=
  ⟨rfl, rfl, rfl⟩

/-- C8, as stated, fails: a command line with `--help` and an unknown option
ends the process with status 2, not 0. -/
theorem help_with_unknown_option_exits_2 :
    ¬ (∀ argv : List (List Char), "--help".toList ∈ argv.tail ∨ "-h".toList ∈ argv.tail →
        (parse_program_options boost argv default_config [] []).2 = .error (.exited 0)) := by
  intro h
  have h2 := h ["osrm-batchroute".toList, "--help".toList, "--bogus".toList] (by decide)
  have h3 : (parse_program_options boost
      ["osrm-batchroute".toList, "--help".toList, "--bogus".toList] default_config [] []).2
      = .error (.exited 2) := rfl
  rw [h3] at h2
  cases h2

/-- C8, amended. When the command line parses and is stored without error and
the help option was given, the resolver prints usage and ends the process with
status 0, whatever else was stored: the data-source path may be missing and the
algorithm name unrecognised. When parsing or storing the command line raises an
error, the resolver prints the error and usage and ends the process with status
2, whether or not help was asked for. -/
theorem help_after_successful_parse (B : Boost) (argv : List (List Char)) (config : EngineConfig)
    (input_path output_path : List Char) :
    (∀ option_variables : variables_map,
      B.store cmdline_options argv = .ok option_variables →
      option_variables.count "help".toList ≠ 0 →
      parse_program_options B argv config input_path output_path
        = ([Diagnostic.visible_options (usage B argv)], .error (.exited 0))) ∧
    (∀ e : po_error,
      B.store cmdline_options argv = .error e →
      parse_program_options B argv config input_path output_path
        = ([Diagnostic.what e, Diagnostic.visible_options (usage B argv)],
           .error (.exited 2))) := by
  constructor
  · intro option_variables hstore hhelp
    unfold parse_program_options
    simp only [hstore, hhelp, ne_eq, not_false_eq_true, if_true]
    rfl
  · intro e hstore
    unfold parse_program_options
    simp only [hstore]
    rfl

/-- Help asked for with an unrecognised algorithm name and no data-source path
(status 0), and help asked for with an unknown option (status 2). -/
theorem help_after_successful_parse_witness :
    (boost.store cmdline_options
        ["/usr/local/bin/osrm-batchroute".toList, "-a".toList, "foo".toList, "--help".toList]
      = .ok [("algorithm".toList, "foo".toList), ("help".toList, [])] ∧
    variables_map.count [("algorithm".toList, "foo".toList), ("help".toList, [])] "help".toList ≠ 0 ∧
    parse_program_options boost
        ["/usr/local/bin/osrm-batchroute".toList, "-a".toList, "foo".toList, "--help".toList]
        default_config [] []
      = ([Diagnostic.visible_options "Usage: osrm-batchroute <base.osrm> [<options>]".toList],
         .error (.exited 0))) ∧
    (boost.store cmdline_options
        ["/usr/local/bin/osrm-batchroute".toList, "--help".toList, "--bogus".toList]
      = .error (.unknown_option "--bogus".toList) ∧
    parse_program_options boost
        ["/usr/local/bin/osrm-batchroute".toList, "--help".toList, "--bogus".toList]
        default_config [] []
      = ([Diagnostic.what (.unknown_option "--bogus".toList),
          Diagnostic.visible_options "Usage: osrm-batchroute <base.osrm> [<options>]".toList],
         .error (.exited 2))) :=
  ⟨⟨rfl, by decide,
    (help_after_successful_parse boost
      ["/usr/local/bin/osrm-batchroute".toList, "-a".toList, "foo".toList, "--help".toList]
      default_config [] []).1 [("algorithm".toList, "foo".toList), ("help".toList, [])] rfl
      (by decide)⟩,
   ⟨rfl,
    (help_after_successful_parse boost
      ["/usr/local/bin/osrm-batchroute".toList, "--help".toList, "--bogus".toList]
      default_config [] []).2 (.unknown_option "--bogus".toList) rfl⟩⟩

end OsrmBatchroute
